import Mathlib

/-!
Verification of the tool-call orchestration core of the superdoc-ai-tools
repository, shallowly embedded in Lean 4.

The embedding follows the module-function implementation in `src/actions.js`
(per the design notes, behaviourally the canonical orchestration logic; the
class-based copy in the unnamed source file is identical on everything
modelled here), together with the logger primitives defined in `src/App.vue`
(`addActionLog`, `updateCurrentLog`, `let currentLogId = 0`) and the relay
endpoint in `proxy/server.js`.

Modelling conventions:
- JavaScript exceptions are modelled with `Except String`; a thrown error
  carries its `message` string.  Stateful functions thread an explicit
  `LoggerState` and return it even on the error path (JS exceptions do not
  roll back mutations).
- A JS value that may be `undefined` is an `Option`; JS truthiness on strings
  (`!s`) treats `none` and `some ""` as falsy, and on numbers treats `none`
  and `some 0` as falsy.  This is modelled explicitly at each use site.
- `JSON.parse(toolCall.function.arguments)` is modelled by `jsonParseArgs`
  over an abstract payload: a well-formed payload yields its `"prompt"`
  field (the only field the code reads), a malformed one throws.
- The `fetch` network layer is a function parameter from requests to
  responses; the list of requests actually issued is returned alongside the
  result so that "no network call is performed" is expressible.
- Each registry entry's `method` is the uniform adapter
  `(ai, prompt) => ai.action.<key>(prompt)`, so invoking a found action's
  method is modelled as applying the document-capability handle (an
  `AiInstance`) to the action's key and the prompt.  Every registry entry
  defines a method, so the source's `!action?.method` test reduces to the
  lookup having failed.
-/

namespace SuperdocAI

/-- One entry of the visible action log (`addActionLog` in `App.vue`).
`interimResult` models the source's streaming interim-text field. -/
structure LogRecord where
  id : Nat
  action : String
  prompt : String
  status : String
  interimResult : Option String
  fullResult : Option String
  error : Option String
deriving DecidableEq

/-- The log state shared by the app shell and the orchestration core:
the append-only `actionLogs` array and the `currentLogId` counter. -/
structure LoggerState where
  actionLogs : List LogRecord
  currentLogId : Nat
deriving DecidableEq

/-- Per `App.vue`, the session starts with `actionLogs = ref([])` and `let currentLogId = 0`. -/
def initialLoggerState : LoggerState :=
  { actionLogs := [], currentLogId := 0 }

/-- The fields an `updateCurrentLog({...})` call may assign
(`Object.assign` semantics: only the listed fields are overwritten). -/
structure LogUpdate where
  status : Option String := none
  error : Option String := none
  fullResult : Option String := none
  interimResult : Option String := none

/-- Apply an update object to a record (`Object.assign(currentLog, updates)`). -/
def applyUpdate (u : LogUpdate) (r : LogRecord) : LogRecord :=
  { r with
    status := match u.status with | some s => s | none => r.status
    error := match u.error with | some e => some e | none => r.error
    fullResult := match u.fullResult with | some f => some f | none => r.fullResult
    interimResult := match u.interimResult with | some x => some x | none => r.interimResult }

/-- Model of `addActionLog(action, prompt)` from `App.vue`: push a fresh record with
the next id and status `Starting...`, and advance the id counter. -/
def addActionLog (action : String) (prompt : String) (st : LoggerState) : LoggerState :=
  { actionLogs := st.actionLogs ++
      [{ id := st.currentLogId, action := action, prompt := prompt,
         status := "Starting...", interimResult := none, fullResult := none,
         error := none }],
    currentLogId := st.currentLogId + 1 }

/-- Model of `updateCurrentLog(updates)` from `App.vue`: if the log is non-empty,
merge the updates into the last record. -/
def updateCurrentLog (u : LogUpdate) (st : LoggerState) : LoggerState :=
  match st.actionLogs.getLast? with
  | none => st
  | some last =>
      { st with actionLogs := st.actionLogs.dropLast ++ [applyUpdate u last] }

/-- Model of `findIndex(log => log.id === oid)` followed by assigning `status` at that
index: rewrite the status of the first record whose id matches, if any. -/
def setStatusById (oid : Nat) (s : String) : List LogRecord → List LogRecord
  | [] => []
  | r :: rs =>
      if r.id = oid then { r with status := s } :: rs
      else r :: setStatusById oid s rs

/-- Model of `updateOriginalLog(originalLogId, actionLogs, toolCallsCount)` from
`src/actions.js`.  `if (!originalLogId) return`: both `undefined` and the
number `0` are falsy, so the update is skipped for either. -/
def updateOriginalLog (originalLogId : Option Nat) (st : LoggerState)
    (toolCallsCount : Nat) : LoggerState :=
  match originalLogId with
  | none => st
  | some oid =>
      if oid = 0 then st
      else
        let s := "All " ++ toString toolCallsCount ++ " function calls completed."
        { st with actionLogs := setStatusById oid s st.actionLogs }

/-- First-match-by-id assignment of the failure status and error message,
as performed by `handleError`'s `findIndex` branch. -/
def setFailById (oid : Nat) (errMsg : String) : List LogRecord → List LogRecord
  | [] => []
  | r :: rs =>
      if r.id = oid then
        { r with status := "Open prompt failed.", error := some errMsg } :: rs
      else r :: setFailById oid errMsg rs

/-- Model of `handleError(error, originalLogId, actionLogs, updateCurrentLog)` from
`src/actions.js`.  `if (originalLogId)` is a truthiness test, so an id of
`0` (like an absent id) falls back to updating the current (last) record. -/
def handleError (errMsg : String) (originalLogId : Option Nat)
    (st : LoggerState) : LoggerState :=
  match originalLogId with
  | some oid =>
      if oid = 0 then
        updateCurrentLog
          { status := some "Open prompt failed.", error := some errMsg } st
      else
        { st with actionLogs := setFailById oid errMsg st.actionLogs }
  | none =>
      updateCurrentLog
        { status := some "Open prompt failed.", error := some errMsg } st

/-- A registry entry: key, display label and model-facing description.
Its `method` is the uniform adapter `(ai, prompt) => ai.action.<key>(prompt)`
and is therefore represented by applying `AiInstance` to the key (below). -/
structure Action where
  key : String
  label : String
  description : String
deriving DecidableEq

/-- The document-editing capability surface: invoking the operation named by
an action key with an instruction either completes or throws a message. -/
def AiInstance : Type := String → String → Except String Unit

/-- The exported `actionsDictionary` of `src/actions.js`, in source order. -/
def actionsDictionary : List Action :=
  [ { key := "find", label := "Find",
      description := "Find the first occurrence of content in the document based on a search instruction" },
    { key := "findAll", label := "Find All",
      description := "Find all occurrences of content in the document based on a search instruction" },
    { key := "highlight", label := "Highlight",
      description := "Highlight specific text or sections in the document with optional color" },
    { key := "replace", label := "Replace",
      description := "Replace the first occurrence of content in the document with new text" },
    { key := "replaceAll", label := "Replace All",
      description := "Replace all occurrences of content in the document with new text" },
    { key := "insertTrackedChange", label := "Insert Tracked Change",
      description := "Insert a single tracked change or suggestion in the document for review" },
    { key := "insertTrackedChanges", label := "Insert Multiple Tracked Changes",
      description := "Insert multiple tracked changes or suggestions throughout the document" },
    { key := "insertComment", label := "Insert Comment",
      description := "Add a single comment or annotation to a specific part of the document" },
    { key := "insertComments", label := "Insert Multiple Comments",
      description := "Add multiple comments or annotations throughout the document" },
    { key := "summarize", label := "Summarize",
      description := "Generate a summary of the document content or specific sections" },
    { key := "insertContent", label := "Insert Content",
      description := "Insert new content, text, or sections into the document at appropriate locations" } ]

/-- The `properties.prompt` entry of a generated tool schema. -/
structure PropSchema where
  type : String
  description : String
deriving DecidableEq

/-- The `parameters` object of a generated tool schema; `properties` is a
string-keyed object, kept as an association list. -/
structure ToolParameters where
  type : String
  properties : List (String × PropSchema)
  required : List String
deriving DecidableEq

/-- The `function` object of a generated tool schema. -/
structure ToolFunctionSchema where
  name : String
  description : String
  parameters : ToolParameters
deriving DecidableEq

/-- A tool schema as sent to the completion endpoint. -/
structure ToolSchema where
  type : String
  function : ToolFunctionSchema
deriving DecidableEq

/-- Model of `convertToOpenAITool` from `buildToolsArray` in `src/actions.js`. -/
def convertToOpenAITool (action : Action) : ToolSchema :=
  { type := "function",
    function :=
      { name := action.key,
        description := action.description,
        parameters :=
          { type := "object",
            properties :=
              [("prompt",
                { type := "string",
                  description := "The specific instruction or prompt for this action" })],
            required := ["prompt"] } } }

/-- Model of `buildToolsArray(availableActions)` from `src/actions.js`. -/
def buildToolsArray (availableActions : List Action) : List ToolSchema :=
  availableActions.map convertToOpenAITool

/-- The raw `arguments` string of a tool call, abstracted by what
`JSON.parse` does with it: a well-formed payload yields a record whose
`"prompt"` field is the given string; a malformed payload makes the parse
throw an error with the given message. -/
inductive ArgsPayload where
  | wellFormed (prompt : String)
  | malformed (errMsg : String)
deriving DecidableEq

/-- Whether `JSON.parse` succeeds on the payload. -/
def ArgsPayload.isWellFormed : ArgsPayload → Bool
  | .wellFormed _ => true
  | .malformed _ => false

/-- Model of `JSON.parse(toolCall.function.arguments)` followed by reading
`args.prompt` (the only field the code consumes). -/
def jsonParseArgs : ArgsPayload → Except String String
  | .wellFormed p => Except.ok p
  | .malformed m => Except.error m

/-- The `function` member of a model-produced tool call. -/
structure ToolCallFunction where
  name : String
  arguments : ArgsPayload
deriving DecidableEq

/-- One invocation request returned by the model. -/
structure ToolCall where
  function : ToolCallFunction
deriving DecidableEq

/-- Model of `executeToolCall(toolCall, availableActions, aiInstance, addActionLog,
updateCurrentLog)` from `src/actions.js`.  Note that `JSON.parse` runs
before the `try` block, so a parse failure escapes uncaught (no log record
is created for it). -/
def executeToolCall (acts : List Action) (ai : AiInstance) (toolCall : ToolCall)
    (st : LoggerState) : Except String String × LoggerState :=
  match jsonParseArgs toolCall.function.arguments with
  | Except.error e => (Except.error e, st)
  | Except.ok promptArg =>
      match acts.find? (fun a => a.key == toolCall.function.name) with
      | none =>
          let st1 := addActionLog toolCall.function.name promptArg st
          let st2 := updateCurrentLog
            { status := some "Error", error := some "Tool not found" } st1
          (Except.ok ("✗ " ++ toolCall.function.name ++ ": Tool not found"), st2)
      | some action =>
          let st1 := addActionLog action.label promptArg st
          match ai action.key promptArg with
          | Except.ok _ =>
              let st2 := updateCurrentLog { status := some "Done." } st1
              (Except.ok ("✓ " ++ action.label ++ ": \"" ++ promptArg ++ "\""), st2)
          | Except.error msg =>
              let st2 := updateCurrentLog
                { status := some "Error", error := some msg } st1
              (Except.ok ("✗ " ++ action.label ++ ": Error - " ++ msg), st2)

/-- Model of `executeToolCalls` from `src/actions.js`: run the batch sequentially,
collecting the result lines; an uncaught exception propagates and discards
the collected lines (but not the log mutations already made). -/
def executeToolCalls (acts : List Action) (ai : AiInstance) :
    List ToolCall → LoggerState → Except String (List String) × LoggerState
  | [], st => (Except.ok [], st)
  | tc :: rest, st =>
      match executeToolCall acts ai tc st with
      | (Except.error e, st1) => (Except.error e, st1)
      | (Except.ok line, st1) =>
          match executeToolCalls acts ai rest st1 with
          | (Except.error e, st2) => (Except.error e, st2)
          | (Except.ok lines, st2) => (Except.ok (line :: lines), st2)

/-- Model of `executeToolCallsFromPrompt` from `src/actions.js`: run the batch, then
update the original turn record and return the joined summary. -/
def executeToolCallsFromPrompt (acts : List Action) (ai : AiInstance)
    (toolCalls : List ToolCall) (originalLogId : Option Nat)
    (st : LoggerState) : Except String String × LoggerState :=
  match executeToolCalls acts ai toolCalls st with
  | (Except.error e, st1) => (Except.error e, st1)
  | (Except.ok toolResults, st1) =>
      let st2 := updateOriginalLog originalLogId st1 toolCalls.length
      (Except.ok ("Function calls executed:\n" ++ String.intercalate "\n" toolResults),
       st2)

/-- Model of `truncateText(text, maxLength)` from `src/actions.js` / `App.vue`:
`!text` is truthiness, so absent and empty input both yield `""`. -/
def truncateText : Option String → Nat → String
  | none, _ => ""
  | some t, maxLength =>
      if t = "" then ""
      else if maxLength < t.length then t.take maxLength ++ "..." else t

/-- A chat message of the completion response: optional `content` and a
`tool_calls` array (an absent array behaves like an empty one under the
code's `tool_calls?.length > 0` test, so both are modelled as `[]`). -/
structure Message where
  content : Option String
  tool_calls : List ToolCall
deriving DecidableEq

/-- One element of the response's `choices` array. -/
structure Choice where
  message : Message
deriving DecidableEq

/-- The parsed JSON body of a completion response: the `choices` array and
the top-level `"content"` field the fallback chain inspects. -/
structure RespData where
  choices : List Choice
  content : Option String
deriving DecidableEq

/-- JSON string quoting (escaping is irrelevant to every property proved). -/
def quoteStr (s : String) : String := "\"" ++ s ++ "\""

/-- Serialization of a raw `arguments` string for `stringifyRespData`. -/
def stringifyPayload : ArgsPayload → String
  | .wellFormed p => quoteStr ("\x7b\"prompt\":" ++ quoteStr p ++ "\x7d")
  | .malformed raw => quoteStr raw

/-- Serialization of one tool call for `stringifyRespData`. -/
def stringifyToolCall (tc : ToolCall) : String :=
  "\x7b\"function\":\x7b\"name\":" ++ quoteStr tc.function.name ++
    ",\"arguments\":" ++ stringifyPayload tc.function.arguments ++ "\x7d\x7d"

/-- Serialization of one message for `stringifyRespData`. -/
def stringifyMessage (m : Message) : String :=
  "\x7b\"content\":" ++
    (match m.content with | some c => quoteStr c | none => "null") ++
    ",\"tool_calls\":[" ++
    String.intercalate "," (m.tool_calls.map stringifyToolCall) ++ "]\x7d"

/-- Model of `JSON.stringify(data)` on the modelled response shape. -/
def stringifyRespData (d : RespData) : String :=
  "\x7b\"choices\":[" ++
    String.intercalate ","
      (d.choices.map (fun c => "\x7b\"message\":" ++ stringifyMessage c.message ++ "\x7d")) ++
    "]" ++
    (match d.content with | some c => ",\"content\":" ++ quoteStr c | none => "") ++
    "\x7d"

/-- JS `x || y` where `x` is a string-or-undefined: `undefined` and `""`
are falsy and select the fallback. -/
def jsOrElse : Option String → String → String
  | some s, fallback => if s = "" then fallback else s
  | none, fallback => fallback

/-- The single `fetch` request `callOpenAI` issues: target URL, the user
prompt wrapped as the one user-role message, and the tools array.  The fixed
sampling constants of the body (`tool_choice: "auto"`, `temperature: 0.7`,
`max_tokens: 1000`) are the same for every request and are not inspected by
any property, so they are left implicit. -/
structure FetchRequest where
  url : String
  prompt : String
  tools : List ToolSchema
deriving DecidableEq

/-- The HTTP layer's answer: numeric status and parsed JSON body. -/
structure HttpResponse where
  status : Nat
  data : RespData
deriving DecidableEq

/-- Model of `response.ok` per the fetch specification: status in 200..299. -/
def HttpResponse.ok (r : HttpResponse) : Bool :=
  200 ≤ r.status && r.status ≤ 299

/-- Model of `callOpenAI(prompt, tools)` from `src/actions.js`.  The first component
lists the network requests actually performed (the `net` parameter is the
transport).  `!proxyUrl` is truthiness: an unset or empty
`VITE_PROXY_URL` throws before any network call. -/
def callOpenAI (proxyUrl : Option String) (net : FetchRequest → HttpResponse)
    (prompt : String) (tools : List ToolSchema) :
    List FetchRequest × Except String RespData :=
  match proxyUrl with
  | none => ([], Except.error "VITE_PROXY_URL not configured")
  | some url =>
      if url = "" then ([], Except.error "VITE_PROXY_URL not configured")
      else
        if (net { url := url, prompt := prompt, tools := tools }).ok then
          ([{ url := url, prompt := prompt, tools := tools }],
           Except.ok (net { url := url, prompt := prompt, tools := tools }).data)
        else
          ([{ url := url, prompt := prompt, tools := tools }],
           Except.error ("HTTP error! status: " ++
             toString (net { url := url, prompt := prompt, tools := tools }).status))

/-- The classified outcome `handleOpenPrompt` returns to the caller. -/
inductive PromptOutcome where
  | toolCallsOut (toolCalls : List ToolCall) (count : Nat)
  | textResponse (content : String)
deriving DecidableEq

/-- Model of `handleOpenPrompt` from `src/actions.js`: one mediator round trip and
classification of the reply; errors are recorded via `handleError` and
re-thrown. -/
def handleOpenPrompt (proxyUrl : Option String) (net : FetchRequest → HttpResponse)
    (acts : List Action) (prompt : String) (originalLogId : Option Nat)
    (st : LoggerState) : Except String PromptOutcome × LoggerState :=
  let st1 := updateCurrentLog { status := some "Processing open prompt..." } st
  match callOpenAI proxyUrl net prompt (buildToolsArray acts) with
  | (_, Except.error e) => (Except.error e, handleError e originalLogId st1)
  | (_, Except.ok data) =>
      match data.choices.head? with
      | some choice =>
          if 0 < choice.message.tool_calls.length then
            (Except.ok (PromptOutcome.toolCallsOut choice.message.tool_calls
                choice.message.tool_calls.length),
             updateCurrentLog
               { status := some ("Executing " ++
                   toString choice.message.tool_calls.length ++
                   " function call(s)...") } st1)
          else
            let content := jsOrElse choice.message.content
              (jsOrElse data.content (stringifyRespData data))
            (Except.ok (PromptOutcome.textResponse content),
             updateCurrentLog
               { status := some "No tools were run.",
                 fullResult := some (truncateText (some content) 100) } st1)
      | none =>
          let content := jsOrElse data.content (stringifyRespData data)
          (Except.ok (PromptOutcome.textResponse content),
           updateCurrentLog
             { status := some "No tools were run.",
               fullResult := some (truncateText (some content) 100) } st1)

/-- One forwarded request of the relay service: the bearer credential it
attaches and the client body it spreads into its upstream payload (with the
defaulted model identifier and forced `stream: false`). -/
structure UpstreamRequest where
  apiKey : String
  clientBody : String
deriving DecidableEq

/-- The upstream provider's answer as the relay consumes it. -/
structure UpstreamResult where
  status : Nat
  bodyText : String
deriving DecidableEq

/-- The body of a relay reply: either an `{error}` object or pass-through
response data. -/
inductive ProxyBody where
  | errBody (msg : String)
  | okBody (payload : String)
deriving DecidableEq

/-- A relay reply: HTTP status plus body. -/
structure ProxyReply where
  status : Nat
  body : ProxyBody
deriving DecidableEq

/-- The `fastify.post('/')` handler of `proxy/server.js`.  The first
component lists the upstream requests actually issued.  `!openaiApiKey` is
truthiness: unset or empty `OPENAI_API_KEY` yields the 500 reply without
contacting the upstream.  The upstream transport may itself throw, which the
handler's `catch` turns into a generic 500. -/
def proxyPost (openaiApiKey : Option String)
    (upstream : UpstreamRequest → Except String UpstreamResult)
    (clientBody : String) : List UpstreamRequest × ProxyReply :=
  match openaiApiKey with
  | none => ([], { status := 500, body := ProxyBody.errBody "OPENAI_API_KEY not configured" })
  | some key =>
      if key = "" then
        ([], { status := 500, body := ProxyBody.errBody "OPENAI_API_KEY not configured" })
      else
        let req : UpstreamRequest := { apiKey := key, clientBody := clientBody }
        match upstream req with
        | Except.error _ =>
            ([req], { status := 500, body := ProxyBody.errBody "Internal server error" })
        | Except.ok resp =>
            if 200 ≤ resp.status ∧ resp.status ≤ 299 then
              ([req], { status := 200, body := ProxyBody.okBody resp.bodyText })
            else
              ([req], { status := resp.status, body := ProxyBody.errBody resp.bodyText })

/-! ### Concrete scenario values used by counterexamples and witnesses -/

/-- A document-capability handle on which every operation succeeds. -/
def aiOk : AiInstance := fun _ _ => Except.ok ()

/-- A document-capability handle on which only the `replace` operation
throws (message `boom`); all others succeed. -/
def aiReplaceFails : AiInstance := fun key _ =>
  if key = "replace" then Except.error "boom" else Except.ok ()

/-- A well-formed `highlight` invocation. -/
def tcHighlight : ToolCall :=
  { function := { name := "highlight", arguments := ArgsPayload.wellFormed "key dates" } }

/-- A well-formed `replace` invocation. -/
def tcReplace : ToolCall :=
  { function := { name := "replace", arguments := ArgsPayload.wellFormed "new text" } }

/-- A well-formed invocation whose name matches no registry key. -/
def tcUnknown : ToolCall :=
  { function := { name := "rotate", arguments := ArgsPayload.wellFormed "spin" } }

/-- An invocation whose `arguments` string fails to parse. -/
def tcMalformed : ToolCall :=
  { function := { name := "replace", arguments := ArgsPayload.malformed "Unexpected token" } }

/-- The log state right after the very first turn of a session logs its
`Open Prompt` record (which therefore has id 0). -/
def firstTurnState : LoggerState :=
  addActionLog "Open Prompt" "highlight the key dates" initialLoggerState

/-- Executing a one-invocation batch for that first turn, with the original
log id captured the way `App.vue` captures it (the last record's id). -/
def firstTurnRun : Except String String × LoggerState :=
  executeToolCallsFromPrompt actionsDictionary aiOk [tcHighlight]
    (firstTurnState.actionLogs.getLast?.map (fun r => r.id)) firstTurnState

/-- A turn record carrying the nonzero id 1. -/
def turnRecord1 : LogRecord :=
  { id := 1, action := "Open Prompt", prompt := "go", status := "Starting...",
    interimResult := none, fullResult := none, error := none }

/-- A log state whose one record is `turnRecord1`. -/
def turnState1 : LoggerState :=
  { actionLogs := [turnRecord1], currentLogId := 2 }

/-- A plain-text completion message. -/
def sampleMessage : Message :=
  { content := some "Here is a summary.", tool_calls := [] }

/-- A completion response carrying only that plain-text message. -/
def sampleRespData : RespData :=
  { choices := [{ message := sampleMessage }], content := none }

/-- A transport that always answers 200 with `sampleRespData`. -/
def netOk : FetchRequest → HttpResponse :=
  fun _ => { status := 200, data := sampleRespData }

/-- A transport that always answers 503. -/
def netFail : FetchRequest → HttpResponse :=
  fun _ => { status := 503, data := sampleRespData }

/-! ### Derived descriptions of a batch execution

The executor is deterministic, so its result line and appended log record for
one invocation (with parseable arguments) are plain functions of the
invocation; these are used to state and prove the batch properties. -/

/-- The prompt argument `JSON.parse` would yield (junk on malformed input;
only used under a well-formedness hypothesis). -/
def callPrompt (tc : ToolCall) : String :=
  match tc.function.arguments with
  | ArgsPayload.wellFormed p => p
  | ArgsPayload.malformed _ => ""

/-- The result line `executeToolCall` returns for an invocation with
parseable arguments. -/
def callLine (acts : List Action) (ai : AiInstance) (tc : ToolCall) : String :=
  match acts.find? (fun a => a.key == tc.function.name) with
  | none => "✗ " ++ tc.function.name ++ ": Tool not found"
  | some action =>
      match ai action.key (callPrompt tc) with
      | Except.ok _ => "✓ " ++ action.label ++ ": \"" ++ callPrompt tc ++ "\""
      | Except.error msg => "✗ " ++ action.label ++ ": Error - " ++ msg

/-- The log record `executeToolCall` appends (already carrying its terminal
status) for an invocation with parseable arguments. -/
def callRecord (acts : List Action) (ai : AiInstance) (tc : ToolCall)
    (id : Nat) : LogRecord :=
  match acts.find? (fun a => a.key == tc.function.name) with
  | none =>
      { id := id, action := tc.function.name, prompt := callPrompt tc,
        status := "Error", interimResult := none, fullResult := none,
        error := some "Tool not found" }
  | some action =>
      match ai action.key (callPrompt tc) with
      | Except.ok _ =>
          { id := id, action := action.label, prompt := callPrompt tc,
            status := "Done.", interimResult := none, fullResult := none,
            error := none }
      | Except.error msg =>
          { id := id, action := action.label, prompt := callPrompt tc,
            status := "Error", interimResult := none, fullResult := none,
            error := some msg }

/-- The result lines of a whole batch, in invocation order. -/
def batchLines (acts : List Action) (ai : AiInstance) : List ToolCall → List String
  | [] => []
  | tc :: rest => callLine acts ai tc :: batchLines acts ai rest

/-- The log records a whole batch appends, with consecutive ids starting at
`startId`, in invocation order. -/
def batchRecords (acts : List Action) (ai : AiInstance) :
    Nat → List ToolCall → List LogRecord
  | _, [] => []
  | startId, tc :: rest =>
      callRecord acts ai tc startId :: batchRecords acts ai (startId + 1) rest

/-! ### Supporting lemmas -/

theorem updateCurrentLog_concat (u : LogUpdate) (l : List LogRecord)
    (r : LogRecord) (n : Nat) :
    updateCurrentLog u { actionLogs := l ++ [r], currentLogId := n } =
      { actionLogs := l ++ [applyUpdate u r], currentLogId := n } := by
  simp [updateCurrentLog, List.getLast?_concat, List.dropLast_concat]

theorem executeToolCall_eq (acts : List Action) (ai : AiInstance)
    (tc : ToolCall) (st : LoggerState) (p : String)
    (h : tc.function.arguments = ArgsPayload.wellFormed p) :
    executeToolCall acts ai tc st =
      (Except.ok (callLine acts ai tc),
       { actionLogs := st.actionLogs ++ [callRecord acts ai tc st.currentLogId],
         currentLogId := st.currentLogId + 1 }) := by
  have hp : callPrompt tc = p := by rw [callPrompt, h]
  rw [executeToolCall, callLine, callRecord, h, hp]
  cases hfind : acts.find? (fun a => a.key == tc.function.name) with
  | none =>
      simp only [jsonParseArgs, addActionLog, updateCurrentLog_concat, applyUpdate]
  | some action =>
      cases hai : ai action.key p with
      | ok u =>
          simp only [jsonParseArgs, addActionLog, updateCurrentLog_concat, applyUpdate, hai]
      | error msg =>
          simp only [jsonParseArgs, addActionLog, updateCurrentLog_concat, applyUpdate, hai]

theorem executeToolCalls_eq (acts : List Action) (ai : AiInstance) :
    ∀ (tcs : List ToolCall) (st : LoggerState),
      (∀ tc ∈ tcs, tc.function.arguments.isWellFormed = true) →
      executeToolCalls acts ai tcs st =
        (Except.ok (batchLines acts ai tcs),
         { actionLogs := st.actionLogs ++ batchRecords acts ai st.currentLogId tcs,
           currentLogId := st.currentLogId + tcs.length }) := by
  intro tcs
  induction tcs with
  | nil => intro st _; simp [executeToolCalls, batchLines, batchRecords]
  | cons tc rest ih =>
      intro st h
      obtain ⟨p, hp⟩ : ∃ p, tc.function.arguments = ArgsPayload.wellFormed p := by
        have hw := h tc (List.mem_cons_self tc rest)
        cases harg : tc.function.arguments with
        | wellFormed q => exact ⟨q, rfl⟩
        | malformed m => rw [harg] at hw; simp [ArgsPayload.isWellFormed] at hw
      have ihr := ih
        { actionLogs := st.actionLogs ++ [callRecord acts ai tc st.currentLogId],
          currentLogId := st.currentLogId + 1 }
        (fun tc' h' => h tc' (List.mem_cons_of_mem tc h'))
      rw [executeToolCalls, executeToolCall_eq acts ai tc st p hp]
      simp only [ihr]
      simp [batchLines, batchRecords, List.append_assoc]
      omega

theorem batchLines_length (acts : List Action) (ai : AiInstance) :
    ∀ tcs : List ToolCall, (batchLines acts ai tcs).length = tcs.length := by
  intro tcs
  induction tcs with
  | nil => rfl
  | cons tc rest ih => simp [batchLines, ih]

theorem batchRecords_length (acts : List Action) (ai : AiInstance) :
    ∀ (tcs : List ToolCall) (s : Nat),
      (batchRecords acts ai s tcs).length = tcs.length := by
  intro tcs
  induction tcs with
  | nil => intro s; rfl
  | cons tc rest ih => intro s; simp [batchRecords, ih]

theorem batchLines_getElem? (acts : List Action) (ai : AiInstance) :
    ∀ (tcs : List ToolCall) (i : Nat),
      (batchLines acts ai tcs)[i]? = (tcs[i]?).map (callLine acts ai) := by
  intro tcs
  induction tcs with
  | nil => intro i; simp [batchLines]
  | cons tc rest ih =>
      intro i
      cases i with
      | zero => simp [batchLines]
      | succ j => simp [batchLines, ih]

theorem batchRecords_getElem? (acts : List Action) (ai : AiInstance) :
    ∀ (tcs : List ToolCall) (s i : Nat),
      (batchRecords acts ai s tcs)[i]? =
        (tcs[i]?).map (fun tc => callRecord acts ai tc (s + i)) := by
  intro tcs
  induction tcs with
  | nil => intro s i; simp [batchRecords]
  | cons tc rest ih =>
      intro s i
      cases i with
      | zero => simp [batchRecords]
      | succ j =>
          simp only [batchRecords, List.getElem?_cons_succ, ih]
          have : s + 1 + j = s + (j + 1) := by omega
          rw [this]

theorem callRecord_id (acts : List Action) (ai : AiInstance) (tc : ToolCall)
    (id : Nat) : (callRecord acts ai tc id).id = id := by
  unfold callRecord
  split
  · rfl
  · split <;> rfl

theorem batchRecords_id_ge (acts : List Action) (ai : AiInstance) :
    ∀ (tcs : List ToolCall) (s : Nat),
      ∀ r ∈ batchRecords acts ai s tcs, s ≤ r.id := by
  intro tcs
  induction tcs with
  | nil => intro s r hr; simp [batchRecords] at hr
  | cons tc rest ih =>
      intro s r hr
      rw [batchRecords] at hr
      rcases List.mem_cons.mp hr with h1 | h2
      · rw [h1, callRecord_id]
      · have := ih (s + 1) r h2
        omega

theorem setStatusById_length (oid : Nat) (s : String) :
    ∀ l : List LogRecord, (setStatusById oid s l).length = l.length := by
  intro l
  induction l with
  | nil => rfl
  | cons r rs ih =>
      by_cases hr : r.id = oid
      · simp [setStatusById, hr]
      · simp [setStatusById, hr, ih]

theorem setStatusById_sets (oid : Nat) (s : String) :
    ∀ l : List LogRecord,
      (∃ r ∈ l, r.id = oid) →
      (l.filter (fun r => r.id == oid)).length ≤ 1 →
      (∀ r ∈ setStatusById oid s l, r.id = oid → r.status = s) ∧
      (∃ r ∈ setStatusById oid s l, r.id = oid ∧ r.status = s) := by
  intro l
  induction l with
  | nil => intro hmem _; simp at hmem
  | cons r rs ih =>
      intro hmem hcount
      by_cases hr : r.id = oid
      · have hfil : (rs.filter (fun x => x.id == oid)).length = 0 := by
          have h1 : (r :: rs).filter (fun x => x.id == oid) =
              r :: rs.filter (fun x => x.id == oid) := by
            simp [List.filter_cons, hr]
          rw [h1, List.length_cons] at hcount
          omega
        have hnone : ∀ x ∈ rs, x.id ≠ oid := by
          intro x hx hxid
          have : x ∈ rs.filter (fun y => y.id == oid) :=
            List.mem_filter.mpr ⟨hx, by simp [hxid]⟩
          rw [List.length_eq_zero.mp hfil] at this
          simp at this
        constructor
        · intro r' hr' hid'
          simp only [setStatusById, if_pos hr] at hr'
          rcases List.mem_cons.mp hr' with h1 | h2
          · rw [h1]
          · exact absurd hid' (hnone r' h2)
        · refine ⟨{ r with status := s }, ?_, hr, rfl⟩
          simp [setStatusById, if_pos hr]
      · have hmem' : ∃ x ∈ rs, x.id = oid := by
          rcases hmem with ⟨x, hx, hxid⟩
          rcases List.mem_cons.mp hx with h1 | h2
          · rw [h1] at hxid; exact absurd hxid hr
          · exact ⟨x, h2, hxid⟩
        have hcount' : (rs.filter (fun x => x.id == oid)).length ≤ 1 := by
          rw [List.filter_cons] at hcount
          simp [hr] at hcount
          exact hcount
        obtain ⟨hall, hex⟩ := ih hmem' hcount'
        constructor
        · intro r' hr' hid'
          simp only [setStatusById, if_neg hr] at hr'
          rcases List.mem_cons.mp hr' with h1 | h2
          · rw [h1] at hid'; exact absurd hid' hr
          · exact hall r' h2 hid'
        · rcases hex with ⟨x, hx, hxid, hxs⟩
          refine ⟨x, ?_, hxid, hxs⟩
          simp [setStatusById, if_neg hr]
          exact Or.inr hx

theorem filter_id_le_one (oid : Nat) :
    ∀ l : List LogRecord, (l.map (fun r => r.id)).Nodup →
      (l.filter (fun r => r.id == oid)).length ≤ 1 := by
  intro l
  induction l with
  | nil => intro _; simp
  | cons r rs ih =>
      intro hnd
      rw [List.map_cons, List.nodup_cons] at hnd
      by_cases hr : r.id = oid
      · have hfil : rs.filter (fun x => x.id == oid) = [] := by
          rw [List.filter_eq_nil_iff]
          intro x hx
          simp only [beq_iff_eq]
          intro hxid
          exact hnd.1 (List.mem_map.mpr ⟨x, hx, by rw [hxid, hr]⟩)
        rw [List.filter_cons]
        simp [hr, hfil]
      · have h1 : (r :: rs).filter (fun x => x.id == oid) =
            rs.filter (fun x => x.id == oid) := by
          simp [List.filter_cons, hr]
        rw [h1]
        exact ih hnd.2

theorem find?_eq_none_of_no_key (acts : List Action) (name : String)
    (h : ∀ a ∈ acts, a.key ≠ name) :
    acts.find? (fun a => a.key == name) = none := by
  rw [List.find?_eq_none]
  intro a ha
  simpa using h a ha

theorem string_length_data (t : String) : t.length = t.data.length := rfl

theorem stringifyRespData_ne_empty (d : RespData) : stringifyRespData d ≠ "" := by
  intro h
  have hlen : (stringifyRespData d).length = 0 := by rw [h]; rfl
  rw [stringifyRespData, String.length_append, String.length_append,
    String.length_append, String.length_append] at hlen
  have h12 : ("\x7b\"choices\":[" : String).length = 12 := by decide
  omega

theorem jsOrElse_of_some (o : Option String) (f s : String)
    (hs : o = some s) (hne : s ≠ "") : jsOrElse o f = s := by
  rw [hs]
  simp [jsOrElse, hne]

theorem jsOrElse_of_falsy (o : Option String) (f : String)
    (h : o = none ∨ o = some "") : jsOrElse o f = f := by
  rcases h with h | h <;> simp [h, jsOrElse]

theorem jsOrElse_ne_empty (o : Option String) (f : String)
    (hf : f ≠ "") : jsOrElse o f ≠ "" := by
  cases o with
  | none => simpa [jsOrElse] using hf
  | some s =>
      by_cases hs : s = "" <;> simp [jsOrElse, hs, hf]

/-! ### The claims -/

/-- C7: for the truncation helper at limit 100, a string of length at most
100 is returned unchanged (so truncation is idempotent on short strings); a
longer string yields exactly its first 100 characters followed by the
3-character ellipsis marker `...`; absent or empty input yields `""`. -/
theorem truncateText_spec (s : String) :
    truncateText none 100 = "" ∧
    truncateText (some "") 100 = "" ∧
    (s.length ≤ 100 → truncateText (some s) 100 = s) ∧
    (100 < s.length →
      truncateText (some s) 100 = s.take 100 ++ "..." ∧
      (s.take 100).length = 100 ∧ ("..." : String).length = 3) := by
  refine ⟨rfl, rfl, ?_, ?_⟩
  · intro h
    by_cases hs : s = ""
    · simp [truncateText, hs]
    · have hnot : ¬ (100 < s.length) := by omega
      simp [truncateText, hs, hnot]
  · intro h
    have hs : s ≠ "" := by
      intro he
      rw [he] at h
      simp [string_length_data] at h
    refine ⟨by simp [truncateText, hs, h], ?_, by decide⟩
    rw [string_length_data (s.take 100), String.data_take, List.length_take]
    have h2 : s.length = s.data.length := rfl
    omega

set_option maxRecDepth 8000 in
/-- Witness for C7 at a concrete 150-character string. -/
theorem truncateText_spec_witness :
    ((String.mk (List.replicate 150 'a')).length ≤ 100 → False) ∧
    truncateText (some (String.mk (List.replicate 150 'a'))) 100 =
      (String.mk (List.replicate 150 'a')).take 100 ++ "..." := by
  have h := (truncateText_spec (String.mk (List.replicate 150 'a'))).2.2.2 (by decide)
  exact ⟨by decide, h.1⟩

/-- C8: the schema builder yields exactly one schema per action, in registry
order; each schema's name is the action's key, its description the action's
description, and it declares exactly one required string parameter named
`prompt` with the fixed description. -/
theorem buildToolsArray_spec (acts : List Action) :
    (buildToolsArray acts).length = acts.length ∧
    ∀ (i : Nat) (a : Action), acts[i]? = some a →
      (buildToolsArray acts)[i]? = some
        { type := "function",
          function :=
            { name := a.key, description := a.description,
              parameters :=
                { type := "object",
                  properties :=
                    [("prompt",
                      { type := "string",
                        description := "The specific instruction or prompt for this action" })],
                  required := ["prompt"] } } } := by
  constructor
  · exact List.length_map acts convertToOpenAITool
  · intro i a h
    rw [buildToolsArray, List.getElem?_map, h]
    rfl

/-- Witness for C8 at the concrete registry and its third entry. -/
theorem buildToolsArray_spec_witness :
    actionsDictionary[2]? = some
      { key := "highlight", label := "Highlight",
        description := "Highlight specific text or sections in the document with optional color" } ∧
    (buildToolsArray actionsDictionary)[2]? = some
      { type := "function",
        function :=
          { name := "highlight",
            description := "Highlight specific text or sections in the document with optional color",
            parameters :=
              { type := "object",
                properties :=
                  [("prompt",
                    { type := "string",
                      description := "The specific instruction or prompt for this action" })],
                required := ["prompt"] } } } :=
  ⟨by decide,
   (buildToolsArray_spec actionsDictionary).2 2
     { key := "highlight", label := "Highlight",
       description := "Highlight specific text or sections in the document with optional color" }
     (by decide)⟩

/-- C9: log ids are assigned from a counter starting at 0 (so the session's
first record has id 0); `updateOriginalLog` guards with JS truthiness on the
stored id, so for id 0 (or an absent id) the batch-completion update is
silently skipped; and `handleError`'s truthiness guard makes the
pre-classification error path for id 0 fall back to updating whichever
record is currently last, leaving all earlier records untouched. -/
theorem idZeroTruthiness_spec (a p m : String) (st : LoggerState) (n k : Nat)
    (l : List LogRecord) (r : LogRecord) :
    initialLoggerState.currentLogId = 0 ∧
    (addActionLog a p initialLoggerState).actionLogs =
      [{ id := 0, action := a, prompt := p, status := "Starting...",
         interimResult := none, fullResult := none, error := none }] ∧
    updateOriginalLog (some 0) st n = st ∧
    updateOriginalLog none st n = st ∧
    handleError m (some 0) st =
      updateCurrentLog { status := some "Open prompt failed.", error := some m } st ∧
    handleError m (some 0) { actionLogs := l ++ [r], currentLogId := k } =
      { actionLogs := l ++ [{ r with status := "Open prompt failed.", error := some m }],
        currentLogId := k } := by
  refine ⟨rfl, by simp [addActionLog, initialLoggerState], by simp [updateOriginalLog],
    rfl, rfl, ?_⟩
  rw [handleError]
  simp [updateCurrentLog_concat, applyUpdate]

/-- C10: a request to the relay's proxy endpoint while the upstream
credential is unset (or empty, equally falsy) is answered with status 500
and an error body naming the missing credential, and no upstream request is
issued. -/
theorem proxyPost_missingKey
    (upstream : UpstreamRequest → Except String UpstreamResult) (body : String) :
    proxyPost none upstream body =
      ([], { status := 500, body := ProxyBody.errBody "OPENAI_API_KEY not configured" }) ∧
    proxyPost (some "") upstream body =
      ([], { status := 500, body := ProxyBody.errBody "OPENAI_API_KEY not configured" }) := by
  constructor
  · rfl
  · simp [proxyPost]

/-- C3 is refuted by the code (the spec states the intended behaviour):
`JSON.parse(toolCall.function.arguments)` runs before the `try` block of
`executeToolCall`, so a malformed payload throws out of the whole batch.  At
the concrete batch `[tcMalformed, tcHighlight]` the loop aborts with the
parse error: no result lines are produced, no log record is written for
either invocation, and the remaining `highlight` invocation never runs —
instead of the claimed per-invocation failure with the batch continuing. -/
theorem executeToolCalls_parse_aborts_batch :
    executeToolCalls actionsDictionary aiOk [tcMalformed, tcHighlight] initialLoggerState =
      (Except.error "Unexpected token", initialLoggerState) := by rfl

/-- C5: the mediator fails with the configuration error before issuing any
network request when the endpoint address is unset or empty; with a
configured endpoint it issues exactly one request, fails with the transport
error carrying the numeric status when the response is not ok, and returns
the response data without error when it is ok. -/
theorem callOpenAI_spec (net : FetchRequest → HttpResponse) (prompt : String)
    (tools : List ToolSchema) :
    callOpenAI none net prompt tools =
      ([], Except.error "VITE_PROXY_URL not configured") ∧
    callOpenAI (some "") net prompt tools =
      ([], Except.error "VITE_PROXY_URL not configured") ∧
    ∀ url : String, url ≠ "" →
      (callOpenAI (some url) net prompt tools).1 =
        [{ url := url, prompt := prompt, tools := tools }] ∧
      ((net { url := url, prompt := prompt, tools := tools }).ok = false →
        (callOpenAI (some url) net prompt tools).2 =
          Except.error ("HTTP error! status: " ++
            toString (net { url := url, prompt := prompt, tools := tools }).status)) ∧
      ((net { url := url, prompt := prompt, tools := tools }).ok = true →
        (callOpenAI (some url) net prompt tools).2 =
          Except.ok (net { url := url, prompt := prompt, tools := tools }).data) := by
  refine ⟨rfl, by simp [callOpenAI], ?_⟩
  intro url hurl
  by_cases hok : (net { url := url, prompt := prompt, tools := tools }).ok
  · refine ⟨?_, ?_, ?_⟩ <;> simp [callOpenAI, hurl, hok]
  · refine ⟨?_, ?_, ?_⟩ <;> simp [callOpenAI, hurl, hok]

/-- Witness for C5: a 503 transport answer at a concrete URL produces the
transport error carrying the status. -/
theorem callOpenAI_spec_witness :
    ("http://localhost:8080" : String) ≠ "" ∧
    (netFail { url := "http://localhost:8080", prompt := "hi", tools := [] }).ok = false ∧
    (callOpenAI (some "http://localhost:8080") netFail "hi" []).2 =
      Except.error "HTTP error! status: 503" := by
  refine ⟨by decide, by decide, ?_⟩
  have h := ((callOpenAI_spec netFail "hi" []).2.2 "http://localhost:8080"
    (by decide)).2.1 (by decide)
  exact h.trans (by rfl)

/-- C2: executing a batch with at least one invocation whose name matches no
registry key yields exactly one result line per invocation, index-aligned
with the model's invocation order; every unresolved invocation appends a
fresh log record finalized with status `Error` and error `Tool not found`,
its result line is the `✗ <functionName>: Tool not found` line, and the rest
of the batch still executes (all N lines and N records are produced).
Each invocation's arguments are assumed parseable; a parse failure is the
separate concern of C3. -/
theorem executeToolCalls_unresolved_spec
    (acts : List Action) (ai : AiInstance) (tcs : List ToolCall) (st : LoggerState)
    (hwf : ∀ tc ∈ tcs, tc.function.arguments.isWellFormed = true)
    (hmiss : ∃ tc ∈ tcs, ∀ a ∈ acts, a.key ≠ tc.function.name) :
    ∃ (lines : List String) (newRecs : List LogRecord) (stF : LoggerState),
      executeToolCalls acts ai tcs st = (Except.ok lines, stF) ∧
      stF.actionLogs = st.actionLogs ++ newRecs ∧
      lines.length = tcs.length ∧
      newRecs.length = tcs.length ∧
      ∀ (i : Nat) (tc : ToolCall), tcs[i]? = some tc →
        (∀ a ∈ acts, a.key ≠ tc.function.name) →
        lines[i]? = some ("✗ " ++ tc.function.name ++ ": Tool not found") ∧
        ∃ lr : LogRecord, newRecs[i]? = some lr ∧ lr.action = tc.function.name ∧
          lr.status = "Error" ∧ lr.error = some "Tool not found" := by
  refine ⟨batchLines acts ai tcs, batchRecords acts ai st.currentLogId tcs, _,
    executeToolCalls_eq acts ai tcs st hwf, rfl,
    batchLines_length acts ai tcs, batchRecords_length acts ai tcs st.currentLogId, ?_⟩
  intro i tc hi hnokey
  have hfind := find?_eq_none_of_no_key acts tc.function.name hnokey
  constructor
  · rw [batchLines_getElem? acts ai tcs i, hi]
    simp [callLine, hfind]
  · refine ⟨callRecord acts ai tc (st.currentLogId + i), ?_, ?_, ?_, ?_⟩
    · rw [batchRecords_getElem? acts ai tcs st.currentLogId i, hi]
      rfl
    · simp [callRecord, hfind]
    · simp [callRecord, hfind]
    · simp [callRecord, hfind]

/-- Witness for C2: the batch `[tcUnknown, tcHighlight]` (an unresolvable
`rotate` followed by a resolvable `highlight`) against the concrete
registry. -/
theorem executeToolCalls_unresolved_spec_witness :
    (∀ tc ∈ [tcUnknown, tcHighlight], tc.function.arguments.isWellFormed = true) ∧
    (∃ tc ∈ [tcUnknown, tcHighlight], ∀ a ∈ actionsDictionary, a.key ≠ tc.function.name) ∧
    ∃ (lines : List String) (newRecs : List LogRecord) (stF : LoggerState),
      executeToolCalls actionsDictionary aiOk [tcUnknown, tcHighlight] initialLoggerState =
        (Except.ok lines, stF) ∧
      stF.actionLogs = initialLoggerState.actionLogs ++ newRecs ∧
      lines.length = ([tcUnknown, tcHighlight] : List ToolCall).length ∧
      newRecs.length = ([tcUnknown, tcHighlight] : List ToolCall).length ∧
      ∀ (i : Nat) (tc : ToolCall), ([tcUnknown, tcHighlight] : List ToolCall)[i]? = some tc →
        (∀ a ∈ actionsDictionary, a.key ≠ tc.function.name) →
        lines[i]? = some ("✗ " ++ tc.function.name ++ ": Tool not found") ∧
        ∃ lr : LogRecord, newRecs[i]? = some lr ∧ lr.action = tc.function.name ∧
          lr.status = "Error" ∧ lr.error = some "Tool not found" :=
  ⟨by decide, by decide,
   executeToolCalls_unresolved_spec actionsDictionary aiOk [tcUnknown, tcHighlight]
     initialLoggerState (by decide) (by decide)⟩

/-- C4: an invocation whose resolved action's operation throws gets its log
record finalized with status `Error` and the failure message in the error
field, its result line is `✗ <label>: Error - <message>`, and the batch
still executes to completion (all N lines and N records are produced).
Arguments of every invocation in the batch are assumed parseable. -/
theorem executeToolCalls_opFailure_spec
    (acts : List Action) (ai : AiInstance) (tcs : List ToolCall) (st : LoggerState)
    (i : Nat) (tc : ToolCall) (a : Action) (p msg : String)
    (hwf : ∀ tc' ∈ tcs, tc'.function.arguments.isWellFormed = true)
    (hi : tcs[i]? = some tc)
    (hp : tc.function.arguments = ArgsPayload.wellFormed p)
    (hfind : acts.find? (fun x => x.key == tc.function.name) = some a)
    (hfail : ai a.key p = Except.error msg) :
    ∃ (lines : List String) (newRecs : List LogRecord) (stF : LoggerState),
      executeToolCalls acts ai tcs st = (Except.ok lines, stF) ∧
      stF.actionLogs = st.actionLogs ++ newRecs ∧
      lines.length = tcs.length ∧
      newRecs.length = tcs.length ∧
      lines[i]? = some ("✗ " ++ a.label ++ ": Error - " ++ msg) ∧
      ∃ lr : LogRecord, newRecs[i]? = some lr ∧ lr.action = a.label ∧
        lr.prompt = p ∧ lr.status = "Error" ∧ lr.error = some msg := by
  have hcp : callPrompt tc = p := by rw [callPrompt, hp]
  refine ⟨batchLines acts ai tcs, batchRecords acts ai st.currentLogId tcs, _,
    executeToolCalls_eq acts ai tcs st hwf, rfl,
    batchLines_length acts ai tcs, batchRecords_length acts ai tcs st.currentLogId,
    ?_, ?_⟩
  · rw [batchLines_getElem? acts ai tcs i, hi]
    simp [callLine, hfind, hcp, hfail]
  · refine ⟨callRecord acts ai tc (st.currentLogId + i), ?_, ?_, ?_, ?_, ?_⟩
    · rw [batchRecords_getElem? acts ai tcs st.currentLogId i, hi]
      rfl
    · simp [callRecord, hfind, hcp, hfail]
    · simp [callRecord, hfind, hcp, hfail]
    · simp [callRecord, hfind, hcp, hfail]
    · simp [callRecord, hfind, hcp, hfail]

/-- Witness for C4: the batch `[tcReplace, tcHighlight]` against a handle on
which `replace` throws `boom`: the first invocation fails, the second still
runs. -/
theorem executeToolCalls_opFailure_spec_witness :
    ([tcReplace, tcHighlight] : List ToolCall)[0]? = some tcReplace ∧
    tcReplace.function.arguments = ArgsPayload.wellFormed "new text" ∧
    actionsDictionary.find? (fun x => x.key == tcReplace.function.name) =
      some { key := "replace", label := "Replace",
             description := "Replace the first occurrence of content in the document with new text" } ∧
    aiReplaceFails "replace" "new text" = Except.error "boom" ∧
    ∃ (lines : List String) (newRecs : List LogRecord) (stF : LoggerState),
      executeToolCalls actionsDictionary aiReplaceFails [tcReplace, tcHighlight]
        initialLoggerState = (Except.ok lines, stF) ∧
      stF.actionLogs = initialLoggerState.actionLogs ++ newRecs ∧
      lines.length = ([tcReplace, tcHighlight] : List ToolCall).length ∧
      newRecs.length = ([tcReplace, tcHighlight] : List ToolCall).length ∧
      lines[0]? = some ("✗ " ++ "Replace" ++ ": Error - " ++ "boom") ∧
      ∃ lr : LogRecord, newRecs[0]? = some lr ∧ lr.action = "Replace" ∧
        lr.prompt = "new text" ∧ lr.status = "Error" ∧ lr.error = some "boom" :=
  ⟨by decide, by decide, by decide, by rfl,
   executeToolCalls_opFailure_spec actionsDictionary aiReplaceFails
     [tcReplace, tcHighlight] initialLoggerState 0 tcReplace
     { key := "replace", label := "Replace",
       description := "Replace the first occurrence of content in the document with new text" }
     "new text" "boom" (by decide) (by decide) (by decide) (by decide) (by rfl)⟩

/-- C1 as stated is violated when the turn's record is the session's first
record: its id is 0, which the truthiness guard of `updateOriginalLog`
treats as absent, so after the one-invocation batch completes the original
record still carries status `Starting...` rather than
`All 1 function calls completed.` (the summary string is still returned). -/
theorem executeToolCallsFromPrompt_skips_first_record :
    (firstTurnState.actionLogs.getLast?.map (fun r => r.id)) = some 0 ∧
    firstTurnRun.1 =
      Except.ok ("Function calls executed:\n" ++ "✓ Highlight: \"key dates\"") ∧
    firstTurnRun.2.actionLogs.map (fun r => r.status) = ["Starting...", "Done."] ∧
    (∀ r ∈ firstTurnRun.2.actionLogs, r.status ≠ "All 1 function calls completed.") := by
  refine ⟨by rfl, by rfl, by rfl, by decide⟩

/-- C1 (amended): for a turn whose model outcome is a batch of N invocations
(each with parseable arguments), provided the turn's record id is JS-truthy
(nonzero) and identifies a record of the log (log ids being unique and below
the id counter, as the logger maintains), executing the batch updates the
original turn record — located by its id, not by last position — to
`All <N> function calls completed.`, and returns the summary string joining
the N individual result lines in execution order (prefixed by the fixed
`Function calls executed:` header line).  The unamended claim fails exactly
when the stored id is falsy: see the counterexample at id 0. -/
theorem executeToolCallsFromPrompt_spec
    (acts : List Action) (ai : AiInstance) (tcs : List ToolCall)
    (st : LoggerState) (oid : Nat)
    (hwf : ∀ tc ∈ tcs, tc.function.arguments.isWellFormed = true)
    (hoid : oid ≠ 0)
    (hmem : ∃ r ∈ st.actionLogs, r.id = oid)
    (hnd : (st.actionLogs.map (fun r => r.id)).Nodup)
    (hlt : ∀ r ∈ st.actionLogs, r.id < st.currentLogId) :
    ∃ (lines : List String) (stMid stF : LoggerState),
      executeToolCalls acts ai tcs st = (Except.ok lines, stMid) ∧
      executeToolCallsFromPrompt acts ai tcs (some oid) st =
        (Except.ok ("Function calls executed:\n" ++ String.intercalate "\n" lines),
         stF) ∧
      lines.length = tcs.length ∧
      stF.actionLogs.length = st.actionLogs.length + tcs.length ∧
      (∀ r ∈ stF.actionLogs, r.id = oid →
        r.status = "All " ++ toString tcs.length ++ " function calls completed.") ∧
      (∃ r ∈ stF.actionLogs, r.id = oid ∧
        r.status = "All " ++ toString tcs.length ++ " function calls completed.") := by
  have hrun := executeToolCalls_eq acts ai tcs st hwf
  have holt : oid < st.currentLogId := by
    obtain ⟨r0, hr0, hid0⟩ := hmem
    have := hlt r0 hr0
    omega
  have hnomatch : ∀ r ∈ batchRecords acts ai st.currentLogId tcs, r.id ≠ oid := by
    intro r hr
    have := batchRecords_id_ge acts ai tcs st.currentLogId r hr
    omega
  have hmem2 : ∃ r ∈ st.actionLogs ++ batchRecords acts ai st.currentLogId tcs,
      r.id = oid := by
    obtain ⟨r0, hr0, hid0⟩ := hmem
    exact ⟨r0, List.mem_append_left _ hr0, hid0⟩
  have hcount : ((st.actionLogs ++ batchRecords acts ai st.currentLogId tcs).filter
      (fun r => r.id == oid)).length ≤ 1 := by
    rw [List.filter_append, List.length_append]
    have h1 := filter_id_le_one oid st.actionLogs hnd
    have h2 : (batchRecords acts ai st.currentLogId tcs).filter
        (fun r => r.id == oid) = [] := by
      rw [List.filter_eq_nil_iff]
      intro r hr
      simpa using hnomatch r hr
    rw [h2]
    simpa using h1
  obtain ⟨hall, hex⟩ := setStatusById_sets oid
    ("All " ++ toString tcs.length ++ " function calls completed.")
    (st.actionLogs ++ batchRecords acts ai st.currentLogId tcs) hmem2 hcount
  refine ⟨batchLines acts ai tcs,
    { actionLogs := st.actionLogs ++ batchRecords acts ai st.currentLogId tcs,
      currentLogId := st.currentLogId + tcs.length },
    { actionLogs := setStatusById oid
        ("All " ++ toString tcs.length ++ " function calls completed.")
        (st.actionLogs ++ batchRecords acts ai st.currentLogId tcs),
      currentLogId := st.currentLogId + tcs.length },
    hrun, ?_, batchLines_length acts ai tcs, ?_, hall, hex⟩
  · rw [executeToolCallsFromPrompt, hrun]
    simp [updateOriginalLog, hoid]
  · rw [setStatusById_length, List.length_append,
      batchRecords_length acts ai tcs st.currentLogId]

/-- Witness for C1 (amended): a turn record with id 1 and a one-invocation
`highlight` batch. -/
theorem executeToolCallsFromPrompt_spec_witness :
    (∀ tc ∈ [tcHighlight], tc.function.arguments.isWellFormed = true) ∧
    (1 : Nat) ≠ 0 ∧
    (∃ r ∈ turnState1.actionLogs, r.id = 1) ∧
    (turnState1.actionLogs.map (fun r => r.id)).Nodup ∧
    (∀ r ∈ turnState1.actionLogs, r.id < turnState1.currentLogId) ∧
    ∃ (lines : List String) (stMid stF : LoggerState),
      executeToolCalls actionsDictionary aiOk [tcHighlight] turnState1 =
        (Except.ok lines, stMid) ∧
      executeToolCallsFromPrompt actionsDictionary aiOk [tcHighlight] (some 1)
        turnState1 =
        (Except.ok ("Function calls executed:\n" ++ String.intercalate "\n" lines),
         stF) ∧
      lines.length = ([tcHighlight] : List ToolCall).length ∧
      stF.actionLogs.length =
        turnState1.actionLogs.length + ([tcHighlight] : List ToolCall).length ∧
      (∀ r ∈ stF.actionLogs, r.id = 1 →
        r.status = "All " ++ toString ([tcHighlight] : List ToolCall).length ++
          " function calls completed.") ∧
      (∃ r ∈ stF.actionLogs, r.id = 1 ∧
        r.status = "All " ++ toString ([tcHighlight] : List ToolCall).length ++
          " function calls completed.") :=
  ⟨by decide, by decide, by decide, by decide, by decide,
   executeToolCallsFromPrompt_spec actionsDictionary aiOk [tcHighlight] turnState1 1
     (by decide) (by decide) (by decide) (by decide) (by decide)⟩

/-- C6: when the reply is successfully fetched and its first choice's
message carries no tool invocation requests, the returned text content is
the message's content when that is present and non-empty, otherwise the
response's top-level `content` field when present and non-empty, otherwise
the full serialized response — and is therefore never the empty string. -/
theorem handleOpenPrompt_text_fallback
    (net : FetchRequest → HttpResponse) (acts : List Action)
    (prompt url : String) (oid : Option Nat) (st : LoggerState) (d : RespData)
    (hurl : url ≠ "")
    (hok : (net { url := url, prompt := prompt, tools := buildToolsArray acts }).ok = true)
    (hdata : (net { url := url, prompt := prompt, tools := buildToolsArray acts }).data = d)
    (hnoTools : ∀ c ∈ d.choices.head?, c.message.tool_calls = []) :
    ∃ (c : String) (stF : LoggerState),
      handleOpenPrompt (some url) net acts prompt oid st =
        (Except.ok (PromptOutcome.textResponse c), stF) ∧
      (∀ s, d.choices.head?.bind (fun ch => ch.message.content) = some s →
        s ≠ "" → c = s) ∧
      ((d.choices.head?.bind (fun ch => ch.message.content) = none ∨
        d.choices.head?.bind (fun ch => ch.message.content) = some "") →
        ∀ s, d.content = some s → s ≠ "" → c = s) ∧
      ((d.choices.head?.bind (fun ch => ch.message.content) = none ∨
        d.choices.head?.bind (fun ch => ch.message.content) = some "") →
        (d.content = none ∨ d.content = some "") → c = stringifyRespData d) ∧
      c ≠ "" := by
  have hcall : callOpenAI (some url) net prompt (buildToolsArray acts) =
      ([{ url := url, prompt := prompt, tools := buildToolsArray acts }],
       Except.ok d) := by
    rw [callOpenAI]
    simp [hurl, hok, hdata]
  cases hc : d.choices.head? with
  | none =>
      refine ⟨jsOrElse d.content (stringifyRespData d),
        updateCurrentLog
          { status := some "No tools were run.",
            fullResult := some (truncateText
              (some (jsOrElse d.content (stringifyRespData d))) 100) }
          (updateCurrentLog { status := some "Processing open prompt..." } st),
        ?_, ?_, ?_, ?_, ?_⟩
      · rw [handleOpenPrompt, hcall]
        simp only [hc]
      · intro s hs
        simp at hs
      · intro _ s hs hne
        exact jsOrElse_of_some d.content (stringifyRespData d) s hs hne
      · intro _ hfals
        exact jsOrElse_of_falsy d.content (stringifyRespData d) hfals
      · exact jsOrElse_ne_empty d.content (stringifyRespData d)
          (stringifyRespData_ne_empty d)
  | some ch =>
      have htc : ch.message.tool_calls = [] := hnoTools ch (by simp [hc])
      refine ⟨jsOrElse ch.message.content (jsOrElse d.content (stringifyRespData d)),
        updateCurrentLog
          { status := some "No tools were run.",
            fullResult := some (truncateText
              (some (jsOrElse ch.message.content
                (jsOrElse d.content (stringifyRespData d)))) 100) }
          (updateCurrentLog { status := some "Processing open prompt..." } st),
        ?_, ?_, ?_, ?_, ?_⟩
      · rw [handleOpenPrompt, hcall]
        simp [hc, htc]
      · intro s hs hne
        exact jsOrElse_of_some ch.message.content _ s hs hne
      · intro hfals s hs hne
        rw [jsOrElse_of_falsy ch.message.content _ hfals]
        exact jsOrElse_of_some d.content (stringifyRespData d) s hs hne
      · intro hfals1 hfals2
        rw [jsOrElse_of_falsy ch.message.content _ hfals1]
        exact jsOrElse_of_falsy d.content (stringifyRespData d) hfals2
      · exact jsOrElse_ne_empty ch.message.content _
          (jsOrElse_ne_empty d.content _ (stringifyRespData_ne_empty d))

/-- Witness for C6: a concrete 200 reply whose only choice carries plain
text and no tool calls. -/
theorem handleOpenPrompt_text_fallback_witness :
    ("http://p" : String) ≠ "" ∧
    (netOk { url := "http://p", prompt := "hi",
             tools := buildToolsArray actionsDictionary }).ok = true ∧
    (netOk { url := "http://p", prompt := "hi",
             tools := buildToolsArray actionsDictionary }).data = sampleRespData ∧
    (∀ c ∈ sampleRespData.choices.head?, c.message.tool_calls = []) ∧
    ∃ (c : String) (stF : LoggerState),
      handleOpenPrompt (some "http://p") netOk actionsDictionary "hi" none
        initialLoggerState =
        (Except.ok (PromptOutcome.textResponse c), stF) ∧
      (∀ s, sampleRespData.choices.head?.bind (fun ch => ch.message.content) = some s →
        s ≠ "" → c = s) ∧
      ((sampleRespData.choices.head?.bind (fun ch => ch.message.content) = none ∨
        sampleRespData.choices.head?.bind (fun ch => ch.message.content) = some "") →
        ∀ s, sampleRespData.content = some s → s ≠ "" → c = s) ∧
      ((sampleRespData.choices.head?.bind (fun ch => ch.message.content) = none ∨
        sampleRespData.choices.head?.bind (fun ch => ch.message.content) = some "") →
        (sampleRespData.content = none ∨ sampleRespData.content = some "") →
        c = stringifyRespData sampleRespData) ∧
      c ≠ "" :=
  ⟨by decide, by rfl, by rfl, by decide,
   handleOpenPrompt_text_fallback netOk actionsDictionary "hi" "http://p" none
     initialLoggerState sampleRespData (by decide) (by rfl) (by rfl) (by decide)⟩

end SuperdocAI
